import Mathlib

/-!
Shallow embedding of scripts/crawl_india_grading.py.

HTML pages are modelled at the level the script consumes them after
BeautifulSoup extraction: a table is its list of header-cell texts, its
list of data-row cell texts and the texts of all its descendant tags
(the token list read by the scale guesser); a page is its tables plus
its anchors.  Python floats are modelled as exact rationals, Python
dicts keyed by id as association lists that overwrite in place, and the
regular expressions of the script as explicit character-list matchers.
-/

namespace Crawl

/-! ## Character and substring utilities -/

/-- Word characters in the sense of the regex class backslash-w
(ASCII letters, digits, underscore; the script only feeds it ASCII). -/
def isWordChar (c : Char) : Bool :=
  c.isAlphanum || c = '_'

/-- Whitespace in the sense of the regex class backslash-s. -/
def isSpaceChar (c : Char) : Bool :=
  c = ' ' || c = '\t' || c = '\n' || c = '\r' || c = '\x0b' || c = '\x0c'

/-- Does the pattern (second argument) occur as a prefix of the list? -/
def listStartsWith : List Char → List Char → Bool
  | _, [] => true
  | [], _ :: _ => false
  | c :: s, d :: pat => c = d && listStartsWith s pat

/-- Python substring containment: pat in s. -/
def hasSubstr : List Char → List Char → Bool
  | [], pat => pat.isEmpty
  | c :: rest, pat => listStartsWith (c :: rest) pat || hasSubstr rest pat

/-- ASCII lowercasing, as str.lower acts on the ASCII inputs the
script feeds it. -/
def lowerChar (c : Char) : Char :=
  if 'A' ≤ c && c ≤ 'Z' then Char.ofNat (c.toNat + 32) else c

def lowerStr (s : String) : String :=
  String.mk (s.toList.map lowerChar)

/-- str.strip: drop whitespace from both ends. -/
def trimAscii (s : String) : String :=
  String.mk (((s.toList.dropWhile isSpaceChar).reverse.dropWhile isSpaceChar).reverse)

/-- str.split on a single-character separator. -/
def splitCharAux (sep : Char) : List Char → List Char → List (List Char)
  | [], acc => [acc.reverse]
  | c :: rest, acc =>
    if c = sep then acc.reverse :: splitCharAux sep rest []
    else splitCharAux sep rest (c :: acc)

def splitDot (s : String) : List String :=
  (splitCharAux '.' s.toList []).map String.mk

def strStarts (s pat : String) : Bool :=
  listStartsWith s.toList pat.toList

/-- Exact rational addition in a form the kernel evaluates; proved
equal to Rat addition below. -/
def addQ (a b : ℚ) : ℚ :=
  mkRat (a.num * b.den + b.num * a.den) (a.den * b.den)

/-! ## A small matcher for the regular expressions the script uses

Patterns are sequences of literal runs, whitespace stars and word
boundaries; this covers every regex in guess_scale_from_tokens.  The
matcher tracks only whether the previously consumed character was a
word character, which is all a boundary test needs. -/

inductive PatItem where
  | lit (cs : List Char)
  | ws
  | bdry
deriving DecidableEq

/-- Is the first character of the remaining input a word character? -/
def headIsWord : List Char → Bool
  | [] => false
  | c :: _ => isWordChar c

/-- Match a pattern at the current position; prevW records whether the
character just before this position is a word character. -/
def matchItems : List PatItem → Bool → List Char → Bool
  | [], _, _ => true
  | .bdry :: ps, prevW, rest =>
    (prevW != headIsWord rest) && matchItems ps prevW rest
  | .ws :: ps, prevW, rest =>
    let sp := rest.takeWhile isSpaceChar
    matchItems ps (if sp.isEmpty then prevW else false) (rest.dropWhile isSpaceChar)
  | .lit cs :: ps, prevW, rest =>
    listStartsWith rest cs &&
      matchItems ps (if cs.isEmpty then prevW else isWordChar (cs.getLastD ' ')) (rest.drop cs.length)

/-- Search for a pattern match anywhere in the input (re.search). -/
def searchItemsAux (pat : List PatItem) : Bool → List Char → Bool
  | prevW, [] => matchItems pat prevW []
  | prevW, c :: rest =>
    matchItems pat prevW (c :: rest) || searchItemsAux pat (isWordChar c) rest

def searchPat (pat : List PatItem) (s : String) : Bool :=
  searchItemsAux pat false s.toList

/-! ## Numeric tokens -/

def natOfDigits (cs : List Char) : Nat :=
  cs.foldl (fun n c => 10 * n + (c.toNat - 48)) 0

/-- Value of an integer part plus a fractional digit run, as the
exact rational with denominator a power of ten. -/
def ratOfParts (ip fp : List Char) : ℚ :=
  mkRat (natOfDigits ip * 10 ^ fp.length + natOfDigits fp) (10 ^ fp.length)

/-- First match of the regex for an unsigned decimal number
(digits, optionally a dot and more digits), as a rational. -/
def scanNum : List Char → Option ℚ
  | [] => none
  | c :: rest =>
    if c.isDigit then
      let ip := c :: rest.takeWhile Char.isDigit
      let rest2 := rest.dropWhile Char.isDigit
      match rest2 with
      | '.' :: d :: ds =>
        if d.isDigit then some (ratOfParts ip (d :: ds.takeWhile Char.isDigit))
        else some (ratOfParts ip [])
      | _ => some (ratOfParts ip [])
    else scanNum rest

def findNum (s : String) : Option ℚ :=
  scanNum s.toList

/-- Existence of a match of the percentage-range regex: a word boundary,
one to three digits, optional spaces, a hyphen, optional spaces, one to
three digits, a word boundary. -/
def digitRun (lo hi : Nat) (cs : List Char) : List (List Char) :=
  (List.range (hi + 1)).filterMap (fun n =>
    if lo ≤ n ∧ n ≤ cs.length ∧ (cs.take n).all Char.isDigit then some (cs.take n) else none)

def percMatchAt (prevW : Bool) (cs : List Char) : Bool :=
  (digitRun 1 3 cs).any (fun d1 =>
    let rest1 := cs.drop d1.length
    (prevW != headIsWord cs) && !d1.isEmpty &&
      (let rest2 := rest1.dropWhile isSpaceChar
       match rest2 with
       | '-' :: rest3 =>
         let rest4 := rest3.dropWhile isSpaceChar
         (digitRun 1 3 rest4).any (fun d2 =>
           !d2.isEmpty &&
             (let rest5 := rest4.drop d2.length
              !(headIsWord rest5)))
       | _ => false))

def percMatchAux : Bool → List Char → Bool
  | prevW, [] => percMatchAt prevW []
  | prevW, c :: rest =>
    percMatchAt prevW (c :: rest) || percMatchAux (isWordChar c) rest

def percMatch (s : String) : Bool :=
  percMatchAux false s.toList

/-- re.sub of one-or-more-whitespace with the empty string. -/
def stripWs (s : String) : String :=
  String.mk (s.toList.filter (fun c => !isSpaceChar c))

/-! ## Data model -/

structure GradeRow where
  grade : String
  points : ℚ
  percentage : Option String
  description : Option String
deriving DecidableEq

structure GradingSystem where
  id : String
  name : String
  country : String
  region : String
  description : String
  scale : ℚ
  grades : List GradeRow
deriving DecidableEq

structure Catalog where
  version : String
  lastUpdated : String
  systems : List GradingSystem
deriving DecidableEq

/-- A table as the script reads it from the soup: its th texts, its
per-tr td texts, and the texts of all its descendant tags. -/
structure HtmlTable where
  headerCells : List String
  rowCells : List (List String)
  tokens : List String
deriving DecidableEq

structure Soup where
  tables : List HtmlTable
deriving DecidableEq

structure Anchor where
  href : String
  text : String
deriving DecidableEq

structure Page where
  soup : Soup
  anchors : List Anchor
deriving DecidableEq

/-! ## guess_scale_from_tokens -/

def pat_outstanding : List PatItem :=
  [.bdry, .lit "outstanding".toList, .bdry]

def pat_o_grade : List PatItem :=
  [.bdry, .lit "o".toList, .ws, .lit "grade".toList, .bdry]

def pat_sgpa : List PatItem := [.bdry, .lit "sgpa".toList]

def pat_cgpa : List PatItem := [.lit "cgpa".toList, .bdry]

def pat_10_point : List PatItem := [.lit "10".toList, .ws, .lit "point".toList]

def pat_10_hyph_point : List PatItem := [.lit "10-point".toList]

def pat_slash_10 : List PatItem := [.bdry, .lit "/10".toList, .bdry]

def pat_7_point : List PatItem := [.lit "7".toList, .ws, .lit "point".toList]

def pat_7_hyph_point : List PatItem := [.lit "7-point".toList]

def pat_slash_7 : List PatItem := [.bdry, .lit "/7".toList, .bdry]

def pat_slash_4 : List PatItem := [.bdry, .lit "/4".toList, .bdry]

def pat_40_scale : List PatItem := [.lit "4.0".toList, .ws, .lit "scale".toList]

def guess_scale_from_tokens (tokens : List String) : Option ℚ :=
  let joined := lowerStr (String.intercalate " " tokens)
  if (searchPat pat_outstanding joined || searchPat pat_o_grade joined) &&
      hasSubstr joined.toList "10".toList then
    some 10
  else if (searchPat pat_sgpa joined || searchPat pat_cgpa joined) &&
      (searchPat pat_10_point joined || searchPat pat_10_hyph_point joined ||
        searchPat pat_slash_10 joined) then
    some 10
  else if searchPat pat_7_point joined || searchPat pat_7_hyph_point joined ||
      searchPat pat_slash_7 joined then
    some 7
  else if searchPat pat_slash_4 joined || searchPat pat_40_scale joined then
    some 4
  else
    none

/-! ## try_parse_grading_table -/

def gradeKeywords : List String :=
  ["grade", "letter", "points", "credit", "percentage", "marks"]

def headerText (t : HtmlTable) : String :=
  String.intercalate " " t.headerCells

def isCandidateTable (t : HtmlTable) : Bool :=
  headerText t ≠ "" &&
    gradeKeywords.any (fun k => hasSubstr (lowerStr (headerText t)).toList k.toList)

/-- One data row: first cell is the label, the first numeric token in a
later cell the points, the first range-shaped later cell the
percentage; rows lacking a label or points are dropped. -/
def parseRow (r : List String) : Option GradeRow :=
  match r with
  | [] => none
  | label :: rest =>
    let points? := rest.findSome? findNum
    let perc? := rest.findSome? (fun cell =>
      if percMatch cell then some (stripWs cell) else none)
    if label = "" then none
    else
      match points? with
      | none => none
      | some p => some { grade := label, points := p, percentage := perc?, description := none }

def maxOfList (q : ℚ) (l : List ℚ) : ℚ :=
  l.foldl max q

/-- One candidate table: extract rows, infer the scale, apply the
plausibility filter; none means the loop continues with the next
candidate. -/
def parseCandidate (t : HtmlTable) : Option (ℚ × List GradeRow) :=
  let rows := t.rowCells.filter (fun r => 2 ≤ r.length)
  if rows.length < 2 then none
  else
    let grades := rows.filterMap parseRow
    match grades with
    | [] => none
    | g :: gs =>
      let maxPoints := maxOfList g.points (gs.map (fun x => x.points))
      let scaleGuess := (guess_scale_from_tokens t.tokens).getD maxPoints
      if (g :: gs).any (fun x => 10 < x.points) && scaleGuess ≤ 10 then none
      else some (scaleGuess, g :: gs)

def try_parse_grading_table (soup : Soup) : Option (ℚ × List GradeRow) :=
  (soup.tables.filter isCandidateTable).findSome? parseCandidate

/-! ## is_valid_indian_system -/

def allowed_scales : List ℚ :=
  [10, 9, 8, 7, 6, 5, mkRat 433 100, 4, 100]

def labelClassChars : List Char :=
  ['O', 'S', 'A', 'U', 'B', 'C', 'D', 'F', 'E', 'P']

/-- Full match of the first label regex alternative: one or two class
characters followed by an optional plus or minus. -/
def matchClassSign (cs : List Char) : Bool :=
  match cs with
  | [a] => labelClassChars.contains a
  | [a, b] => labelClassChars.contains a &&
      (labelClassChars.contains b || b = '+' || b = '-')
  | [a, b, c] => labelClassChars.contains a && labelClassChars.contains b &&
      (c = '+' || c = '-')
  | _ => false

/-- Full match of the A-to-D-with-optional-sign alternative. -/
def matchLetterSign (cs : List Char) : Bool :=
  match cs with
  | [a] => 'A' ≤ a && a ≤ 'D'
  | [a, b] => 'A' ≤ a && a ≤ 'D' && (b = '+' || b = '-')
  | _ => false

/-- Full match of one to three digits with an optional trailing L. -/
def matchSmallNumeric (cs : List Char) : Bool :=
  let ds := if cs.getLastD ' ' = 'L' then cs.dropLast else cs
  (decide (1 ≤ ds.length)) && (decide (ds.length ≤ 3)) && ds.all Char.isDigit

def labelWordAlternatives : List String :=
  ["HD", "D", "C", "P", "F", "First", "Pass", "Fail"]

def explicitLabels : List String :=
  ["O", "A+", "A", "A-", "B+", "B", "B-", "C+", "C", "C-", "D", "E", "P", "F", "HD"]

def looks_like_grade_label (label : String) : Bool :=
  let l := trimAscii label
  if l = "" || 20 < l.length then false
  else if matchClassSign l.toList || matchLetterSign l.toList ||
      labelWordAlternatives.contains l then true
  else if matchSmallNumeric l.toList then true
  else if explicitLabels.contains l then true
  else false

/-- The per-row loop of is_valid_indian_system, carrying the set of
labels seen so far. -/
def validRows (scale : ℚ) : List GradeRow → List String → Bool
  | [], _ => true
  | row :: rest, seen =>
    if row.points < 0 || addQ scale (mkRat 1 1000000) < row.points then false
    else if !looks_like_grade_label row.grade then false
    else if row.grade ∈ seen then false
    else validRows scale rest (row.grade :: seen)

def is_valid_indian_system (s : GradingSystem) : Bool :=
  if s.scale ∉ allowed_scales then false
  else if s.grades.length < 3 then false
  else validRows s.scale s.grades []

/-! ## merge_into_existing -/

/-- The cleaning pass over the existing systems: drop Indian entries
that fail validation, keep everything else. -/
def cleanExisting (l : List GradingSystem) : List GradingSystem :=
  l.filter (fun s => s.country ≠ "India" || is_valid_indian_system s)

/-- Insertion into an id-keyed dict: overwrite in place on an existing
key, append on a fresh one (Python dict insertion-order semantics). -/
def upsertById (s : GradingSystem) : List GradingSystem → List GradingSystem
  | [] => [s]
  | t :: rest => if t.id = s.id then s :: rest else t :: upsertById s rest

/-- The dict comprehension keyed by id over the cleaned existing list. -/
def buildById (l : List GradingSystem) : List GradingSystem :=
  l.foldl (fun acc s => upsertById s acc) []

/-- One iteration of the new-systems loop: skip an empty id, skip an
invalid Indian system, otherwise upsert by id. -/
def mergeStep (acc : List GradingSystem) (s : GradingSystem) : List GradingSystem :=
  if s.id = "" then acc
  else if s.country = "India" && !is_valid_indian_system s then acc
  else upsertById s acc

def mergedSystems (existingSystems newSystems : List GradingSystem) :
    List GradingSystem :=
  newSystems.foldl mergeStep (buildById (cleanExisting existingSystems))

/-- Python int() on the trimmed string: optional sign, then digits
possibly separated by single underscores. -/
def pyDigitsRest : List Char → Bool
  | [] => true
  | '_' :: c :: rest => c.isDigit && pyDigitsRest rest
  | c :: rest => c.isDigit && pyDigitsRest rest

def pyDigitsOk : List Char → Bool
  | [] => false
  | c :: rest => c.isDigit && pyDigitsRest rest

def pyDigitsVal (cs : List Char) : Nat :=
  natOfDigits (cs.filter (fun c => c ≠ '_'))

def pyParseNat (cs : List Char) : Option Nat :=
  if pyDigitsOk cs then some (pyDigitsVal cs) else none

def pyParseInt (s : String) : Option Int :=
  match (trimAscii s).toList with
  | '+' :: rest => (pyParseNat rest).map Int.ofNat
  | '-' :: rest => (pyParseNat rest).map (fun n => -(n : Int))
  | cs => (pyParseNat cs).map Int.ofNat

/-- Bump the final dotted segment of the version as an integer; on
parse failure leave the version unchanged. -/
def bumpVersion (v : String) : String :=
  match pyParseInt ((splitDot v).getLastD "") with
  | some n => String.intercalate "." ((splitDot v).dropLast ++ [toString (n + 1)])
  | none => v

/-- merge_into_existing; today stands for the run date the script reads
from the clock. -/
def merge_into_existing (existing : Catalog) (new_systems : List GradingSystem)
    (today : String) : Catalog :=
  { version := bumpVersion existing.version
    lastUpdated := today
    systems := mergedSystems existing.systems new_systems }

def lookupById (l : List GradingSystem) (key : String) : Option GradingSystem :=
  l.find? (fun t => t.id = key)

/-! ## find_and_parse_grading -/

def keyPatterns : List String :=
  ["academic", "regulation", "ordinance", "examination", "grading",
   "evaluation", "credit", "curriculum"]

/-- The regex match of scheme and host at the start of the homepage
URL; none when the URL has no such shape. -/
def urlSchemeHost (cs : List Char) : Option (List Char) :=
  if listStartsWith cs "https://".toList then
    let host := (cs.drop 8).takeWhile (fun c => c ≠ '/')
    if host.isEmpty then none else some ("https://".toList ++ host)
  else if listStartsWith cs "http://".toList then
    let host := (cs.drop 7).takeWhile (fun c => c ≠ '/')
    if host.isEmpty then none else some ("http://".toList ++ host)
  else none

def baseUrlOf (homepage : String) : String :=
  match urlSchemeHost homepage.toList with
  | some pre => String.mk pre
  | none => homepage

/-- Resolve an anchor to an absolute URL; anchors that are neither
site-relative nor absolute are dropped. -/
def resolveLink (baseUrl : String) (a : Anchor) : Option String :=
  if strStarts a.href "/" then some (baseUrl ++ a.href)
  else if strStarts a.href "http://" || strStarts a.href "https://" then some a.href
  else none

def wantLink (a : Anchor) : Bool :=
  keyPatterns.any (fun k =>
    hasSubstr (lowerStr a.text).toList k.toList || hasSubstr (lowerStr a.href).toList k.toList)

def pageLinks (baseUrl : String) (p : Page) : List String :=
  p.anchors.filterMap (fun a =>
    match resolveLink baseUrl a with
    | none => none
    | some u => if wantLink a then some u else none)

/-- The crawl loop.  The oracle stands for the fetch: none covers both
a failed request and empty content, which the script treats alike.
The second component of the result is the visited set in insertion
order, which is exactly the sequence of URLs fetched. -/
def exploreAux (oracle : String → Option Page) (baseUrl : String) :
    List String → List String → Option (ℚ × List GradeRow) × List String
  | [], visited => (none, visited)
  | url :: rest, visited =>
    if h : visited.length < 5 then
      if url ∈ visited then exploreAux oracle baseUrl rest visited
      else
        match oracle url with
        | none => exploreAux oracle baseUrl rest (visited ++ [url])
        | some page =>
          match try_parse_grading_table page.soup with
          | some res => (some res, visited ++ [url])
          | none =>
            exploreAux oracle baseUrl (rest ++ pageLinks baseUrl page) (visited ++ [url])
    else (none, visited)
termination_by toVisit visited => (5 - visited.length, toVisit.length)
decreasing_by
  all_goals simp only [List.length_append, List.length_cons]
  · exact Prod.Lex.right _ (Nat.lt_succ_self _)
  · exact Prod.Lex.left _ _ (by omega)
  · exact Prod.Lex.left _ _ (by omega)

def find_and_parse_grading (oracle : String → Option Page) (homepage : String) :
    Option (ℚ × List GradeRow) × List String :=
  exploreAux oracle (baseUrlOf homepage) [homepage] []

/-- The fetch-then-interpret composite the crawl applies to each
visited URL. -/
def fetchParse (oracle : String → Option Page) (u : String) :
    Option (ℚ × List GradeRow) :=
  (oracle u).bind (fun p => try_parse_grading_table p.soup)

/-! ## country_baselines -/

def gr (g : String) (p : ℚ) (perc : Option String) (d : Option String) : GradeRow :=
  { grade := g, points := p, percentage := perc, description := d }

def country_baselines : List GradingSystem :=
  [ { id := "china_100", name := "China 100-Point Scale", country := "China",
      region := "East Asia", description := "Chinese 0–100 scale", scale := 100,
      grades :=
        [ gr "Excellent" 95 (some "95-100") none,
          gr "Very Good" 85 (some "85-94") none,
          gr "Good" 75 (some "75-84") none,
          gr "Satisfactory" 65 (some "65-74") none,
          gr "Pass" 60 (some "60-64") none,
          gr "Fail" 0 (some "0-59") none ] },
    { id := "russia_5", name := "Russia 5-Point Scale", country := "Russia",
      region := "Europe",
      description := "Russian 5-point scale (5=Excellent, 2=Unsatisfactory)", scale := 5,
      grades :=
        [ gr "5" 5 (some "85-100") (some "Excellent"),
          gr "4" 4 (some "70-84") (some "Good"),
          gr "3" 3 (some "60-69") (some "Satisfactory"),
          gr "2" 0 (some "0-59") (some "Unsatisfactory") ] },
    { id := "portugal_20", name := "Portugal 20-Point Scale", country := "Portugal",
      region := "Europe", description := "Portuguese 0–20 scale", scale := 20,
      grades :=
        [ gr "20" 20 (some "95-100") none,
          gr "18-19" 19 (some "90-94") none,
          gr "16-17" 17 (some "80-89") none,
          gr "14-15" 15 (some "70-79") none,
          gr "10-13" 12 (some "50-69") none,
          gr "0-9" 0 (some "0-49") none ] },
    { id := "austria_5", name := "Austria 5-Point Scale", country := "Austria",
      region := "Europe",
      description := "Austrian 1–5 scale (1=Sehr gut, 5=Nicht genügend)", scale := 5,
      grades :=
        [ gr "1" 1 (some "90-100") (some "Sehr gut"),
          gr "2" 2 (some "80-89") (some "Gut"),
          gr "3" 3 (some "65-79") (some "Befriedigend"),
          gr "4" 4 (some "50-64") (some "Genügend"),
          gr "5" 5 (some "0-49") (some "Nicht genügend") ] },
    { id := "czech_1_4", name := "Czech Republic 1–4 Scale", country := "Czech Republic",
      region := "Europe", description := "Czech 1–4 scale (1=best, 4=fail)", scale := 4,
      grades :=
        [ gr "1" 1 (some "90-100") (some "Výborně"),
          gr "2" 2 (some "75-89") (some "Velmi dobře"),
          gr "3" 3 (some "60-74") (some "Dobře"),
          gr "4" 4 (some "0-59") (some "Nedostatečně") ] },
    { id := "poland_2_5", name := "Poland 2–5 Scale", country := "Poland",
      region := "Europe", description := "Polish 2–5 scale (5=very good, 2=fail)",
      scale := 5,
      grades :=
        [ gr "5" 5 (some "90-100") (some "Bardzo dobry"),
          gr "4" 4 (some "75-89") (some "Dobry"),
          gr "3" 3 (some "60-74") (some "Dostateczny"),
          gr "2" 0 (some "0-59") (some "Niedostateczny") ] },
    { id := "hungary_5", name := "Hungary 5-Point Scale", country := "Hungary",
      region := "Europe",
      description := "Hungarian 1–5 scale (5=Jeles, 1=Elégtelen)", scale := 5,
      grades :=
        [ gr "5" 5 (some "90-100") (some "Jeles"),
          gr "4" 4 (some "80-89") (some "Jó"),
          gr "3" 3 (some "65-79") (some "Közepes"),
          gr "2" 2 (some "50-64") (some "Elégséges"),
          gr "1" 0 (some "0-49") (some "Elégtelen") ] },
    { id := "romania_10", name := "Romania 10-Point Scale", country := "Romania",
      region := "Europe", description := "Romanian 1–10 scale", scale := 10,
      grades :=
        [ gr "10" 10 (some "95-100") none,
          gr "9" 9 (some "85-94") none,
          gr "8" 8 (some "75-84") none,
          gr "7" 7 (some "65-74") none,
          gr "6" 6 (some "55-64") none,
          gr "5" 5 (some "50-54") none,
          gr "0-4" 0 (some "0-49") none ] },
    { id := "greece_10", name := "Greece 10-Point Scale", country := "Greece",
      region := "Europe", description := "Greek 0–10 scale", scale := 10,
      grades :=
        [ gr "9-10" (19 / 2) (some "90-100") (some "Άριστα"),
          gr "7-8.9" 8 (some "70-89") (some "Λίαν Καλώς"),
          gr "5-6.9" 6 (some "50-69") (some "Καλώς"),
          gr "0-4.9" 0 (some "0-49") (some "Ανεπιτυχώς") ] },
    { id := "turkey_100", name := "Turkey 100-Point Scale", country := "Turkey",
      region := "Europe", description := "Turkish 0–100 scale", scale := 100,
      grades :=
        [ gr "90-100" 95 (some "90-100") (some "AA"),
          gr "80-89" 85 (some "80-89") (some "BA/BB"),
          gr "70-79" 75 (some "70-79") (some "CB/CC"),
          gr "60-69" 65 (some "60-69") (some "DC/DD"),
          gr "50-59" 55 (some "50-59") (some "FD"),
          gr "0-49" 0 (some "0-49") (some "FF") ] },
    { id := "argentina_10", name := "Argentina 10-Point Scale", country := "Argentina",
      region := "South America", description := "Argentine 0–10 scale", scale := 10,
      grades :=
        [ gr "10" 10 (some "95-100") none,
          gr "9" 9 (some "90-94") none,
          gr "8" 8 (some "80-89") none,
          gr "7" 7 (some "70-79") none,
          gr "6" 6 (some "60-69") none,
          gr "0-5" 0 (some "0-59") none ] },
    { id := "chile_7", name := "Chile 7-Point Scale", country := "Chile",
      region := "South America", description := "Chilean 1.0–7.0 scale", scale := 7,
      grades :=
        [ gr "7.0" 7 (some "95-100") (some "Sobresaliente"),
          gr "6.0" 6 (some "85-94") (some "Muy bueno"),
          gr "5.0" 5 (some "75-84") (some "Bueno"),
          gr "4.0" 4 (some "60-74") (some "Suficiente"),
          gr "1.0-3.9" 0 (some "0-59") (some "Insuficiente") ] },
    { id := "colombia_5", name := "Colombia 5-Point Scale", country := "Colombia",
      region := "South America", description := "Colombian 0–5 scale", scale := 5,
      grades :=
        [ gr "5.0" 5 (some "90-100") none,
          gr "4.0" 4 (some "80-89") none,
          gr "3.0" 3 (some "70-79") none,
          gr "2.0" 2 (some "60-69") none,
          gr "0-1.9" 0 (some "0-59") none ] },
    { id := "peru_20", name := "Peru 20-Point Scale", country := "Peru",
      region := "South America", description := "Peruvian 0–20 scale", scale := 20,
      grades :=
        [ gr "18-20" 19 (some "90-100") none,
          gr "14-17" 15 (some "70-89") none,
          gr "11-13" 12 (some "55-69") none,
          gr "0-10" 0 (some "0-54") none ] },
    { id := "philippines_5", name := "Philippines 1.0–5.0 Scale", country := "Philippines",
      region := "Southeast Asia", description := "Philippine 1.0 (best) to 5.0 (fail)",
      scale := 5,
      grades :=
        [ gr "1.0" 1 (some "96-100") (some "Excellent"),
          gr "1.5" (3 / 2) (some "90-95") none,
          gr "2.0" 2 (some "84-89") none,
          gr "2.5" (5 / 2) (some "78-83") none,
          gr "3.0" 3 (some "75-77") (some "Pass"),
          gr "5.0" 5 (some "0-74") (some "Fail") ] },
    { id := "malaysia_4_0", name := "Malaysia 4.0 Scale", country := "Malaysia",
      region := "Southeast Asia", description := "Malaysian 4.0 GPA scale", scale := 4,
      grades :=
        [ gr "A" 4 (some "80-100") none,
          gr "A-" (37 / 10) (some "75-79") none,
          gr "B+" (33 / 10) (some "70-74") none,
          gr "B" 3 (some "65-69") none,
          gr "B-" (27 / 10) (some "60-64") none,
          gr "C+" (23 / 10) (some "55-59") none,
          gr "C" 2 (some "50-54") none,
          gr "F" 0 (some "0-49") none ] },
    { id := "indonesia_4_0", name := "Indonesia 4.0 Scale", country := "Indonesia",
      region := "Southeast Asia", description := "Indonesian 4.0 GPA scale", scale := 4,
      grades :=
        [ gr "A" 4 (some "85-100") none,
          gr "A-" (37 / 10) (some "80-84") none,
          gr "B+" (33 / 10) (some "75-79") none,
          gr "B" 3 (some "70-74") none,
          gr "C+" (23 / 10) (some "65-69") none,
          gr "C" 2 (some "60-64") none,
          gr "D" 1 (some "50-59") none,
          gr "E" 0 (some "0-49") none ] },
    { id := "singapore_5_0", name := "Singapore 5.0 Scale", country := "Singapore",
      region := "Southeast Asia", description := "Singaporean 5.0 GPA scale variant",
      scale := 5,
      grades :=
        [ gr "A+" 5 none none,
          gr "A" 5 none none,
          gr "A-" (9 / 2) none none,
          gr "B+" 4 none none,
          gr "B" (7 / 2) none none,
          gr "B-" 3 none none,
          gr "C+" (5 / 2) none none,
          gr "C" 2 none none,
          gr "D" 1 none none,
          gr "F" 0 none none ] },
    { id := "saudi_arabia_5_0", name := "Saudi Arabia 5.0 Scale", country := "Saudi Arabia",
      region := "Middle East", description := "Saudi 5.0 GPA scale", scale := 5,
      grades :=
        [ gr "A+" 5 none none,
          gr "A" (9 / 2) none none,
          gr "B+" 4 none none,
          gr "B" (7 / 2) none none,
          gr "C+" 3 none none,
          gr "C" (5 / 2) none none,
          gr "D+" 2 none none,
          gr "D" 1 none none,
          gr "F" 0 none none ] },
    { id := "uae_4_0", name := "UAE 4.0 Scale", country := "United Arab Emirates",
      region := "Middle East", description := "UAE 4.0 GPA scale", scale := 4,
      grades :=
        [ gr "A" 4 none none,
          gr "A-" (37 / 10) none none,
          gr "B+" (33 / 10) none none,
          gr "B" 3 none none,
          gr "C+" (23 / 10) none none,
          gr "C" 2 none none,
          gr "D" 1 none none,
          gr "F" 0 none none ] },
    { id := "iran_20", name := "Iran 20-Point Scale", country := "Iran",
      region := "Middle East", description := "Iranian 0–20 scale", scale := 20,
      grades :=
        [ gr "18-20" 19 (some "90-100") none,
          gr "15-17" 16 (some "75-89") none,
          gr "10-14" 12 (some "50-74") none,
          gr "0-9" 0 (some "0-49") none ] },
    { id := "pakistan_4_0", name := "Pakistan 4.0 Scale", country := "Pakistan",
      region := "South Asia", description := "Pakistani 4.0 GPA scale", scale := 4,
      grades :=
        [ gr "A" 4 none none,
          gr "B" 3 none none,
          gr "C" 2 none none,
          gr "D" 1 none none,
          gr "F" 0 none none ] },
    { id := "nigeria_5_0", name := "Nigeria 5.0 Scale", country := "Nigeria",
      region := "Africa", description := "Nigerian 5.0 GPA scale", scale := 5,
      grades :=
        [ gr "A" 5 none none,
          gr "B" 4 none none,
          gr "C" 3 none none,
          gr "D" 2 none none,
          gr "E" 1 none none,
          gr "F" 0 none none ] },
    { id := "kenya_100", name := "Kenya 100-Point Scale", country := "Kenya",
      region := "Africa", description := "Kenyan 0–100 with letter categories",
      scale := 100,
      grades :=
        [ gr "A" 90 (some "80-100") none,
          gr "B" 70 (some "65-79") none,
          gr "C" 55 (some "50-64") none,
          gr "D" 40 (some "40-49") none,
          gr "E" 0 (some "0-39") none ] } ]

/-! ## Concrete inputs used by the closed theorems below -/

/-- A table whose context tokens imply a 7-point scale while a row
carries 8 points: the keyword filter and the plausibility filter both
pass, so the interpreter returns it. -/
def exTable7 : HtmlTable :=
  { headerCells := ["Grade", "Points"],
    rowCells := [["A", "8"], ["B", "6"], ["C", "5"]],
    tokens := ["Grade", "Points", "7-point scale"] }

def exSoup7 : Soup := ⟨[exTable7]⟩

def exRows7 : List GradeRow :=
  [ { grade := "A", points := 8, percentage := none, description := none },
    { grade := "B", points := 6, percentage := none, description := none },
    { grade := "C", points := 5, percentage := none, description := none } ]

def annaRows : List GradeRow :=
  [gr "O" 10 none none, gr "A+" 9 none none, gr "A" 8 none none, gr "B+" 7 none none]

def annaSystem : GradingSystem :=
  { id := "anna_university", name := "Anna University", country := "India",
    region := "South Asia", description := "Anna University grading system",
    scale := 10, grades := annaRows }

def sysA : GradingSystem :=
  { id := "sys_a", name := "System A", country := "Testland", region := "R",
    description := "test system a", scale := 10,
    grades := [gr "A" 10 none none] }

def sysB : GradingSystem :=
  { id := "sys_b", name := "System B", country := "Testland", region := "R",
    description := "test system b", scale := 10,
    grades := [gr "B" 9 none none] }

def emptyCat : Catalog := ⟨"1.0.0", "2020-01-01", []⟩

def cat103 : Catalog := ⟨"1.0.3", "2020-01-01", []⟩

/-- An Indian system with one row whose points exceed the scale plus
the tolerance. -/
def badIndian : GradingSystem :=
  { id := "bad_indian", name := "Bad Indian", country := "India", region := "South Asia",
    description := "row out of bounds", scale := 10,
    grades := [gr "A" 11 none none, gr "B" 6 none none, gr "C" 5 none none] }

def scale3System : GradingSystem :=
  { id := "scale3_system", name := "Scale Three", country := "India",
    region := "South Asia", description := "inadmissible scale", scale := 3,
    grades := [gr "A" 3 none none, gr "B" 2 none none, gr "C" 1 none none] }

def dupLabelSystem : GradingSystem :=
  { id := "dup_label_system", name := "Duplicate Labels", country := "India",
    region := "South Asia", description := "two rows labelled A", scale := 10,
    grades := [gr "A" 9 none none, gr "A" 8 none none, gr "B" 7 none none] }

/-- A system that would pass validation but has an empty id. -/
def noIdSystem : GradingSystem :=
  { id := "", name := "No Id", country := "India", region := "South Asia",
    description := "valid but unnamed", scale := 10,
    grades := [gr "O" 10 none none, gr "A" 9 none none, gr "B" 8 none none] }

def portugalSystem : GradingSystem :=
  { id := "portugal_20", name := "Portugal 20-Point Scale", country := "Portugal",
    region := "Europe", description := "Portuguese 0–20 scale", scale := 20,
    grades :=
      [ gr "20" 20 (some "95-100") none,
        gr "18-19" 19 (some "90-94") none,
        gr "16-17" 17 (some "80-89") none,
        gr "14-15" 15 (some "70-79") none,
        gr "10-13" 12 (some "50-69") none,
        gr "0-9" 0 (some "0-49") none ] }

/-! ## Helper lemmas: findSome? -/

theorem findSome?_mem {α β : Type} {f : α → Option β} {l : List α} {b : β}
    (h : l.findSome? f = some b) : ∃ a ∈ l, f a = some b := by
  induction l with
  | nil => simp [List.findSome?] at h
  | cons x xs ih =>
    rw [List.findSome?] at h
    cases hx : f x with
    | some v =>
      rw [hx] at h
      exact ⟨x, List.mem_cons_self x xs, by simp [hx, ← h]⟩
    | none =>
      rw [hx] at h
      obtain ⟨a, ha, hfa⟩ := ih h
      exact ⟨a, List.mem_cons_of_mem x ha, hfa⟩

theorem findSome?_eq_none_of {α β : Type} {f : α → Option β} {l : List α}
    (h : ∀ a ∈ l, f a = none) : l.findSome? f = none := by
  induction l with
  | nil => simp [List.findSome?]
  | cons x xs ih =>
    rw [List.findSome?, h x (List.mem_cons_self x xs)]
    exact ih (fun a ha => h a (List.mem_cons_of_mem x ha))

theorem findSome?_append_singleton {α β : Type} {f : α → Option β} {l : List α}
    {u : α} (h : ∀ a ∈ l, f a = none) :
    (l ++ [u]).findSome? f = f u := by
  induction l with
  | nil => cases hu : f u <;> simp [List.findSome?, hu]
  | cons x xs ih =>
    rw [List.cons_append, List.findSome?, h x (List.mem_cons_self x xs)]
    exact ih (fun a ha => h a (List.mem_cons_of_mem x ha))

/-! ## Helper lemmas: extracted points are nonnegative -/

theorem addQ_eq_add (a b : ℚ) : addQ a b = a + b := by
  unfold addQ
  rw [Rat.add_def, Rat.normalize_eq_mkRat]

theorem tol_eq (scale : ℚ) : addQ scale (mkRat 1 1000000) = scale + 1 / 1000000 := by
  rw [addQ_eq_add, Rat.mkRat_eq_div]
  norm_num

theorem ratOfParts_nonneg (ip fp : List Char) : 0 ≤ ratOfParts ip fp := by
  unfold ratOfParts
  rw [Rat.mkRat_eq_div]
  positivity

theorem scanNum_nonneg {cs : List Char} {q : ℚ} (h : scanNum cs = some q) : 0 ≤ q := by
  induction cs with
  | nil => simp [scanNum] at h
  | cons c rest ih =>
    rw [scanNum] at h
    split at h
    · dsimp only at h
      split at h
      · split at h
        · injection h with h
          exact h ▸ ratOfParts_nonneg _ _
        · injection h with h
          exact h ▸ ratOfParts_nonneg _ _
      · injection h with h
        exact h ▸ ratOfParts_nonneg _ _
    · exact ih h

theorem findNum_nonneg {s : String} {q : ℚ} (h : findNum s = some q) : 0 ≤ q :=
  scanNum_nonneg h

theorem parseRow_points_nonneg {r : List String} {g : GradeRow}
    (h : parseRow r = some g) : 0 ≤ g.points := by
  unfold parseRow at h
  rcases r with _ | ⟨label, rest⟩
  · simp at h
  · simp only at h
    by_cases hl : label = ""
    · simp [hl] at h
    · simp only [hl, if_false] at h
      rcases hp : rest.findSome? findNum with _ | p
      · rw [hp] at h; simp at h
      · rw [hp] at h
        simp only [Option.some.injEq] at h
        obtain ⟨cell, _, hcell⟩ := findSome?_mem hp
        have := findNum_nonneg hcell
        rw [← h]
        exact this

theorem parseCandidate_points_nonneg {t : HtmlTable} {sc : ℚ} {gs : List GradeRow}
    (h : parseCandidate t = some (sc, gs)) : ∀ g ∈ gs, 0 ≤ g.points := by
  intro g hgmem
  simp only [parseCandidate] at h
  split at h
  · exact absurd h (by simp)
  · split at h
    · exact absurd h (by simp)
    · rename_i g0 grest hg
      split at h
      · exact absurd h (by simp)
      · rw [Option.some.injEq, Prod.mk.injEq] at h
        obtain ⟨h1, h2⟩ := h
        rw [← h2] at hgmem
        have hmem2 : g ∈ List.filterMap parseRow
            (t.rowCells.filter (fun r => 2 ≤ r.length)) := by
          rw [hg]; exact hgmem
        obtain ⟨r, _, hr⟩ := List.mem_filterMap.mp hmem2
        exact parseRow_points_nonneg hr

theorem try_parse_points_nonneg {soup : Soup} {sc : ℚ} {gs : List GradeRow}
    (h : try_parse_grading_table soup = some (sc, gs)) : ∀ g ∈ gs, 0 ≤ g.points := by
  obtain ⟨t, _, ht⟩ := findSome?_mem h
  exact parseCandidate_points_nonneg ht

/-! ## Helper lemmas: the validator -/

theorem validRows_bounds {scale : ℚ} {rows : List GradeRow} {seen : List String}
    (h : validRows scale rows seen = true) :
    ∀ g ∈ rows, 0 ≤ g.points ∧ g.points ≤ scale + 1 / 1000000 := by
  induction rows generalizing seen with
  | nil => intro g hg; simp at hg
  | cons row rest ih =>
    rw [validRows] at h
    split at h
    · exact absurd h (by simp)
    · split at h
      · exact absurd h (by simp)
      · split at h
        · exact absurd h (by simp)
        · rename_i hbad _ _
          intro g hg
          rcases List.mem_cons.mp hg with hEq | hmem
          · subst hEq
            simp only [Bool.or_eq_true, decide_eq_true_eq, not_or] at hbad
            rw [tol_eq] at hbad
            exact ⟨le_of_not_lt hbad.1, le_of_not_lt hbad.2⟩
          · exact ih h g hmem

theorem validRows_nodup {scale : ℚ} {rows : List GradeRow} {seen : List String}
    (h : validRows scale rows seen = true) :
    (rows.map (fun g => g.grade)).Nodup ∧ ∀ g ∈ rows, g.grade ∉ seen := by
  induction rows generalizing seen with
  | nil => simp
  | cons row rest ih =>
    rw [validRows] at h
    split at h
    · exact absurd h (by simp)
    · split at h
      · exact absurd h (by simp)
      · split at h
        · exact absurd h (by simp)
        · rename_i hseen
          obtain ⟨hnodup, hnotin⟩ := ih h
          refine ⟨?_, ?_⟩
          · rw [List.map_cons, List.nodup_cons]
            refine ⟨?_, hnodup⟩
            intro hmem
            obtain ⟨g, hg, hgrade⟩ := List.mem_map.mp hmem
            exact (hnotin g hg) (hgrade ▸ List.mem_cons_self _ _)
          · intro g hg
            rcases List.mem_cons.mp hg with hEq | hmem
            · subst hEq
              exact fun hmem2 => hseen hmem2
            · exact fun hmem2 => (hnotin g hmem) (List.mem_cons_of_mem _ hmem2)

theorem is_valid_scale_notin {s : GradingSystem} (h : s.scale ∉ allowed_scales) :
    is_valid_indian_system s = false := by
  unfold is_valid_indian_system
  rw [if_pos h]

theorem is_valid_validRows {s : GradingSystem} (h : is_valid_indian_system s = true) :
    validRows s.scale s.grades [] = true := by
  unfold is_valid_indian_system at h
  split at h
  · exact absurd h (by simp)
  · split at h
    · exact absurd h (by simp)
    · exact h

theorem invalid_of_bad_row {s : GradingSystem} {g : GradeRow} (hg : g ∈ s.grades)
    (hbad : g.points < 0 ∨ s.scale + 1 / 1000000 < g.points) :
    is_valid_indian_system s = false := by
  cases hval : is_valid_indian_system s with
  | false => rfl
  | true =>
    have hb := validRows_bounds (is_valid_validRows hval) g hg
    rcases hbad with hlt | hgt
    · exact absurd hb.1 (not_le_of_lt hlt)
    · exact absurd hb.2 (not_le_of_lt hgt)

theorem invalid_of_dup_labels {s : GradingSystem}
    (h : ¬ (s.grades.map (fun g => g.grade)).Nodup) :
    is_valid_indian_system s = false := by
  cases hval : is_valid_indian_system s with
  | false => rfl
  | true => exact absurd (validRows_nodup (is_valid_validRows hval)).1 h

/-! ## Helper lemmas: the merger -/

def ids (l : List GradingSystem) : List String := l.map (fun s => s.id)

theorem mem_ids_upsert {s : GradingSystem} {l : List GradingSystem} {x : String}
    (h : x ∈ ids (upsertById s l)) : x ∈ ids l ∨ x = s.id := by
  induction l with
  | nil =>
    simp only [upsertById, ids, List.map_cons, List.map_nil, List.mem_singleton] at h
    exact Or.inr h
  | cons t rest ih =>
    rw [upsertById] at h
    split at h
    · simp only [ids, List.map_cons, List.mem_cons] at h
      rcases h with h | h
      · exact Or.inr h
      · exact Or.inl (by simp only [ids, List.map_cons, List.mem_cons]; exact Or.inr h)
    · simp only [ids, List.map_cons, List.mem_cons] at h
      rcases h with h | h
      · exact Or.inl (by simp only [ids, List.map_cons, List.mem_cons]; exact Or.inl h)
      · rcases ih h with h2 | h2
        · exact Or.inl (by simp only [ids, List.map_cons, List.mem_cons]; exact Or.inr h2)
        · exact Or.inr h2

theorem idsNodup_upsert {s : GradingSystem} {l : List GradingSystem}
    (h : (ids l).Nodup) : (ids (upsertById s l)).Nodup := by
  induction l with
  | nil => simp [upsertById, ids]
  | cons t rest ih =>
    rw [upsertById]
    simp only [ids, List.map_cons, List.nodup_cons] at h
    split
    · rename_i hid
      simp only [ids, List.map_cons, List.nodup_cons]
      exact ⟨hid ▸ h.1, h.2⟩
    · rename_i hid
      simp only [ids, List.map_cons, List.nodup_cons]
      refine ⟨?_, ih h.2⟩
      intro hmem
      rcases mem_ids_upsert (by simpa [ids] using hmem) with h2 | h2
      · exact h.1 (by simpa [ids] using h2)
      · exact hid h2

theorem filter_id_nil {l : List GradingSystem} {key : String} (h : key ∉ ids l) :
    l.filter (fun t => t.id = key) = [] := by
  induction l with
  | nil => rfl
  | cons t rest ih =>
    simp only [ids, List.map_cons, List.mem_cons, not_or] at h
    have hne : ¬ (t.id = key) := fun hEq => h.1 hEq.symm
    simp only [List.filter_cons, hne, decide_False, Bool.false_eq_true, if_false]
    exact ih (by simpa [ids] using h.2)

theorem filter_upsert {s : GradingSystem} {l : List GradingSystem}
    (h : (ids l).Nodup) :
    (upsertById s l).filter (fun t => t.id = s.id) = [s] := by
  induction l with
  | nil => simp [upsertById, List.filter_cons]
  | cons t rest ih =>
    rw [upsertById]
    simp only [ids, List.map_cons, List.nodup_cons] at h
    split
    · rename_i hid
      have hrest : s.id ∉ ids rest := hid ▸ h.1
      simp [List.filter_cons, filter_id_nil hrest]
    · rename_i hid
      simp only [List.filter_cons, hid, decide_False, Bool.false_eq_true, if_false]
      exact ih h.2

theorem lookup_upsert_self {s : GradingSystem} {l : List GradingSystem} :
    lookupById (upsertById s l) s.id = some s := by
  induction l with
  | nil => simp [upsertById, lookupById, List.find?]
  | cons t rest ih =>
    rw [upsertById]
    split
    · simp [lookupById, List.find?]
    · rename_i hid
      unfold lookupById
      rw [List.find?_cons]
      simp only [hid, decide_False]
      exact ih

theorem lookup_upsert_other {s : GradingSystem} {l : List GradingSystem} {key : String}
    (h : key ≠ s.id) : lookupById (upsertById s l) key = lookupById l key := by
  induction l with
  | nil =>
    simp only [upsertById, lookupById, List.find?]
    have : ¬ (s.id = key) := fun hEq => h hEq.symm
    simp [this]
  | cons t rest ih =>
    rw [upsertById]
    split
    · rename_i hid
      unfold lookupById
      rw [List.find?_cons, List.find?_cons]
      have hs : ¬ (s.id = key) := fun hEq => h hEq.symm
      have ht : ¬ (t.id = key) := fun hEq => hs (hid ▸ hEq)
      simp [hs, ht]
    · unfold lookupById
      rw [List.find?_cons, List.find?_cons]
      by_cases hdec : t.id = key
      · simp [hdec]
      · simp only [hdec, decide_False]
        exact ih

/-- A new system is either skipped by the merge loop (for every
accumulator alike) or upserted (for every accumulator alike). -/
theorem mergeStep_cases (s : GradingSystem) :
    (∀ acc, mergeStep acc s = acc) ∨ (∀ acc, mergeStep acc s = upsertById s acc) := by
  unfold mergeStep
  by_cases h1 : s.id = ""
  · exact Or.inl (fun acc => by rw [if_pos h1])
  · by_cases h2 : (s.country = "India" && !is_valid_indian_system s) = true
    · exact Or.inl (fun acc => by rw [if_neg h1, if_pos h2])
    · exact Or.inr (fun acc => by rw [if_neg h1, if_neg h2])

theorem mergeStep_skip {acc : List GradingSystem} {s : GradingSystem}
    (h : s.id = "" ∨ (s.country = "India" ∧ is_valid_indian_system s = false)) :
    mergeStep acc s = acc := by
  unfold mergeStep
  rcases h with h | ⟨hc, hv⟩
  · rw [if_pos h]
  · by_cases hid : s.id = ""
    · rw [if_pos hid]
    · rw [if_neg hid, if_pos (by simp [hc, hv])]

theorem mergeStep_upsert {acc : List GradingSystem} {s : GradingSystem}
    (h1 : s.id ≠ "") (h2 : s.country = "India" → is_valid_indian_system s = true) :
    mergeStep acc s = upsertById s acc := by
  unfold mergeStep
  rw [if_neg h1, if_neg]
  intro hcond
  simp only [Bool.and_eq_true, Bool.not_eq_true', decide_eq_true_eq] at hcond
  exact absurd hcond.2 (by simp [h2 hcond.1])

theorem idsNodup_mergeStep {acc : List GradingSystem} {s : GradingSystem}
    (h : (ids acc).Nodup) : (ids (mergeStep acc s)).Nodup := by
  rcases mergeStep_cases s with hc | hc
  · rw [hc]; exact h
  · rw [hc]; exact idsNodup_upsert h

theorem idsNodup_foldl_mergeStep {l : List GradingSystem} {acc : List GradingSystem}
    (h : (ids acc).Nodup) : (ids (l.foldl mergeStep acc)).Nodup := by
  induction l generalizing acc with
  | nil => exact h
  | cons s rest ih => exact ih (idsNodup_mergeStep h)

theorem idsNodup_buildById (l : List GradingSystem) : (ids (buildById l)).Nodup := by
  unfold buildById
  suffices hgen : ∀ acc : List GradingSystem, (ids acc).Nodup →
      (ids (l.foldl (fun acc s => upsertById s acc) acc)).Nodup by
    exact hgen [] (by simp [ids])
  induction l with
  | nil => exact fun acc h => h
  | cons s rest ih => exact fun acc h => ih _ (idsNodup_upsert h)

theorem idsNodup_mergedSystems (E ns : List GradingSystem) :
    (ids (mergedSystems E ns)).Nodup := by
  unfold mergedSystems
  exact idsNodup_foldl_mergeStep (idsNodup_buildById _)

theorem mergedSystems_skip {E l1 l2 : List GradingSystem} {s : GradingSystem}
    (h : s.id = "" ∨ (s.country = "India" ∧ is_valid_indian_system s = false)) :
    mergedSystems E (l1 ++ s :: l2) = mergedSystems E (l1 ++ l2) := by
  unfold mergedSystems
  rw [List.foldl_append, List.foldl_append, List.foldl_cons, mergeStep_skip h]

theorem merge_skip_middle {ex : Catalog} {l1 l2 : List GradingSystem}
    {s : GradingSystem} {d : String}
    (h : s.id = "" ∨ (s.country = "India" ∧ is_valid_indian_system s = false)) :
    merge_into_existing ex (l1 ++ s :: l2) d = merge_into_existing ex (l1 ++ l2) d := by
  unfold merge_into_existing
  rw [mergedSystems_skip h]

/-- Updates under two distinct ids commute up to permutation of the
id-keyed list. -/
theorem upsert_comm {a b : GradingSystem} (h : a.id ≠ b.id) (l : List GradingSystem) :
    List.Perm (upsertById b (upsertById a l)) (upsertById a (upsertById b l)) := by
  induction l with
  | nil =>
    simp only [upsertById]
    rw [if_neg (fun hEq => h hEq), if_neg (fun hEq => h hEq.symm)]
    exact List.Perm.swap _ _ _
  | cons t rest ih =>
    by_cases hta : t.id = a.id
    · have htb : t.id ≠ b.id := fun hEq => h (hta ▸ hEq)
      have e1 : upsertById a (t :: rest) = a :: rest := by
        rw [upsertById, if_pos hta]
      have e2 : upsertById b (a :: rest) = a :: upsertById b rest := by
        rw [upsertById, if_neg (fun hEq => h hEq)]
      have e3 : upsertById b (t :: rest) = t :: upsertById b rest := by
        rw [upsertById, if_neg htb]
      have e4 : upsertById a (t :: upsertById b rest) = a :: upsertById b rest := by
        rw [upsertById, if_pos hta]
      rw [e1, e2, e3, e4]
    · by_cases htb : t.id = b.id
      · have e1 : upsertById a (t :: rest) = t :: upsertById a rest := by
          rw [upsertById, if_neg hta]
        have e2 : upsertById b (t :: upsertById a rest) = b :: upsertById a rest := by
          rw [upsertById, if_pos htb]
        have e3 : upsertById b (t :: rest) = b :: rest := by
          rw [upsertById, if_pos htb]
        have e4 : upsertById a (b :: rest) = b :: upsertById a rest := by
          rw [upsertById, if_neg (fun hEq => h hEq.symm)]
        rw [e1, e2, e3, e4]
      · have e1 : upsertById a (t :: rest) = t :: upsertById a rest := by
          rw [upsertById, if_neg hta]
        have e2 : upsertById b (t :: upsertById a rest) = t :: upsertById b (upsertById a rest) := by
          rw [upsertById, if_neg htb]
        have e3 : upsertById b (t :: rest) = t :: upsertById b rest := by
          rw [upsertById, if_neg htb]
        have e4 : upsertById a (t :: upsertById b rest) = t :: upsertById a (upsertById b rest) := by
          rw [upsertById, if_neg hta]
        rw [e1, e2, e3, e4]
        exact List.Perm.cons _ ih

theorem mergeStep_comm {a b : GradingSystem} (h : a.id ≠ b.id)
    (acc : List GradingSystem) :
    List.Perm (mergeStep (mergeStep acc a) b) (mergeStep (mergeStep acc b) a) := by
  rcases mergeStep_cases a with ha | ha <;> rcases mergeStep_cases b with hb | hb <;>
    simp only [ha, hb] <;>
    first
      | exact List.Perm.refl _
      | exact upsert_comm h acc

/-- Looking up a key different from the id of the new system is
unaffected by one merge iteration. -/
theorem lookup_mergeStep_other {acc : List GradingSystem} {s : GradingSystem}
    {key : String} (h : key ≠ s.id) :
    lookupById (mergeStep acc s) key = lookupById acc key := by
  rcases mergeStep_cases s with hc | hc
  · rw [hc]
  · rw [hc]; exact lookup_upsert_other h

theorem lookup_foldl_mergeStep {l : List GradingSystem} {acc : List GradingSystem}
    {key : String} (h : ∀ s ∈ l, key ≠ s.id) :
    lookupById (l.foldl mergeStep acc) key = lookupById acc key := by
  induction l generalizing acc with
  | nil => rfl
  | cons s rest ih =>
    rw [List.foldl_cons, ih (fun t ht => h t (List.mem_cons_of_mem s ht)),
      lookup_mergeStep_other (h s (List.mem_cons_self s rest))]

/-- Each new system that reaches the upsert with an id no later new
system repeats ends up in the merged list unchanged. -/
theorem lookup_foldl_mergeStep_mem {l : List GradingSystem} {acc : List GradingSystem}
    {b : GradingSystem} (hmem : b ∈ l) (hnodup : (ids l).Nodup)
    (hpass : ∀ s ∈ l, s.id ≠ "" ∧ (s.country = "India" → is_valid_indian_system s = true)) :
    lookupById (l.foldl mergeStep acc) b.id = some b := by
  induction l generalizing acc with
  | nil => simp at hmem
  | cons s rest ih =>
    simp only [ids, List.map_cons, List.nodup_cons] at hnodup
    rcases List.mem_cons.mp hmem with hEq | hmem2
    · subst hEq
      rw [List.foldl_cons]
      have hp := hpass b (List.mem_cons_self b rest)
      rw [mergeStep_upsert hp.1 hp.2]
      have hne : ∀ t ∈ rest, b.id ≠ t.id := by
        intro t ht hkey
        exact hnodup.1 (by rw [hkey]; exact List.mem_map_of_mem (fun s => s.id) ht)
      rw [lookup_foldl_mergeStep hne]
      exact lookup_upsert_self
    · rw [List.foldl_cons]
      exact ih hmem2 hnodup.2 (fun t ht => hpass t (List.mem_cons_of_mem s ht))

/-- Merged catalogs retain each offered system whose id is fresh among
the offers, non-empty, and whose validation gate passes. -/
theorem lookup_merge (ex : Catalog) (ns : List GradingSystem) (d : String)
    (b : GradingSystem) (hmem : b ∈ ns) (hnodup : (ids ns).Nodup)
    (hpass : ∀ s ∈ ns, s.id ≠ "" ∧ (s.country = "India" → is_valid_indian_system s = true)) :
    lookupById (merge_into_existing ex ns d).systems b.id = some b := by
  unfold merge_into_existing mergedSystems
  exact lookup_foldl_mergeStep_mem hmem hnodup hpass

/-! ## Helper lemmas: the crawl loop -/

/-- Invariant of the crawl loop: starting from a duplicate-free visited
set of at most five URLs none of which matched, the final visited set
is duplicate-free, within budget, and the returned result is the
interpreter result of the first visited URL that matches. -/
theorem exploreAux_spec (oracle : String → Option Page) (baseUrl : String)
    (toVisit visited : List String) :
    visited.Nodup → visited.length ≤ 5 →
    (∀ u ∈ visited, fetchParse oracle u = none) →
    (exploreAux oracle baseUrl toVisit visited).2.Nodup ∧
    (exploreAux oracle baseUrl toVisit visited).2.length ≤ 5 ∧
    (exploreAux oracle baseUrl toVisit visited).1 =
      (exploreAux oracle baseUrl toVisit visited).2.findSome? (fetchParse oracle) := by
  induction toVisit, visited using exploreAux.induct oracle baseUrl with
  | case1 visited =>
    intro h1 h2 h3
    rw [exploreAux]
    exact ⟨h1, h2, (findSome?_eq_none_of h3).symm⟩
  | case2 url rest visited hlt hmem ih =>
    intro h1 h2 h3
    rw [exploreAux]
    simp only [dif_pos hlt, if_pos hmem]
    exact ih h1 h2 h3
  | case3 url rest visited hlt hmem horacle ih =>
    intro h1 h2 h3
    have h3x : ∀ u ∈ visited ++ [url], fetchParse oracle u = none := by
      intro u hu
      rcases List.mem_append.mp hu with hu | hu
      · exact h3 u hu
      · rw [List.mem_singleton.mp hu]
        unfold fetchParse
        rw [horacle]
        rfl
    rw [exploreAux]
    simp only [dif_pos hlt, if_neg hmem, horacle]
    exact ih (by simp [List.nodup_append, h1, hmem]) (by simp; omega) h3x
  | case4 url rest visited hlt hmem page horacle res hparse =>
    intro h1 h2 h3
    rw [exploreAux]
    simp only [dif_pos hlt, if_neg hmem, horacle, hparse]
    refine ⟨by simp [List.nodup_append, h1, hmem], by simp; omega, ?_⟩
    rw [findSome?_append_singleton h3]
    unfold fetchParse
    rw [horacle]
    simp [hparse]
  | case5 url rest visited hlt hmem page horacle hparse ih =>
    intro h1 h2 h3
    have h3x : ∀ u ∈ visited ++ [url], fetchParse oracle u = none := by
      intro u hu
      rcases List.mem_append.mp hu with hu | hu
      · exact h3 u hu
      · rw [List.mem_singleton.mp hu]
        unfold fetchParse
        rw [horacle]
        simpa using hparse
    rw [exploreAux]
    simp only [dif_pos hlt, if_neg hmem, horacle, hparse]
    exact ih (by simp [List.nodup_append, h1, hmem]) (by simp; omega) h3x
  | case6 url rest visited hlt =>
    intro h1 h2 h3
    rw [exploreAux]
    simp only [dif_neg hlt]
    exact ⟨h1, h2, (findSome?_eq_none_of h3).symm⟩

/-! ## The claims -/

/-- C1, counterexample to the claim as stated: a page whose tables
yield a successful Table Interpreter result in which a grade row's
points value (8) exceeds the inferred scale (7) beyond the 1e-6
tolerance, because the scale came from the contextual token 7-point
rather than the row maximum. -/
theorem claim_C1_counterexample :
    try_parse_grading_table exSoup7 = some (7, exRows7) ∧
    ∃ g ∈ exRows7, (7 : ℚ) + 1 / 1000000 < g.points := by
  constructor
  · decide
  · exact ⟨gr "A" 8 none none, by decide, by norm_num [gr]⟩

/-- C1, amended: every extracted grade row's points value is
nonnegative, but may exceed the inferred scale; an India-country
system containing a row with points outside the closed interval from 0
to scale plus 1e-6 fails validation and is therefore skipped whole by
the merge, so no such row reaches the catalog. -/
theorem claim_C1_amended :
    (∀ (soup : Soup) (sc : ℚ) (gs : List GradeRow),
        try_parse_grading_table soup = some (sc, gs) → ∀ g ∈ gs, 0 ≤ g.points) ∧
    (∀ (s : GradingSystem) (ex : Catalog) (l1 l2 : List GradingSystem) (d : String),
        s.country = "India" →
        (∃ g ∈ s.grades, g.points < 0 ∨ s.scale + 1 / 1000000 < g.points) →
        merge_into_existing ex (l1 ++ s :: l2) d = merge_into_existing ex (l1 ++ l2) d) := by
  constructor
  · intro soup sc gs h
    exact try_parse_points_nonneg h
  · rintro s ex l1 l2 d hcountry ⟨g, hg, hbad⟩
    exact merge_skip_middle (Or.inr ⟨hcountry, invalid_of_bad_row hg hbad⟩)

theorem claim_C1_amended_witness :
    (0 : ℚ) ≤ (gr "A" 8 none none).points ∧
    merge_into_existing emptyCat [badIndian] "2025-10-12" =
      merge_into_existing emptyCat [] "2025-10-12" :=
  ⟨claim_C1_amended.1 exSoup7 7 exRows7 (by decide) (gr "A" 8 none none) (by decide),
   claim_C1_amended.2 badIndian emptyCat [] [] "2025-10-12" (by decide)
     ⟨gr "A" 11 none none, by decide, Or.inr (by norm_num [badIndian, gr])⟩⟩

/-- C2, counterexample to the claim as stated: with two fresh distinct
ids the merged catalogs differ, because the systems sequence lists the
new entries in insertion order. -/
theorem claim_C2_counterexample :
    merge_into_existing emptyCat [sysA, sysB] "2025-10-12" ≠
      merge_into_existing emptyCat [sysB, sysA] "2025-10-12" := by
  decide

/-- C2, amended: for distinct ids, merging A then B and merging B then
A agree on the version and the last-updated date, and their systems
sequences are permutations of each other (the same id-keyed entries,
possibly in a different order). -/
theorem claim_C2_amended (ex : Catalog) (a b : GradingSystem) (d : String)
    (h : a.id ≠ b.id) :
    (merge_into_existing ex [a, b] d).version =
      (merge_into_existing ex [b, a] d).version ∧
    (merge_into_existing ex [a, b] d).lastUpdated =
      (merge_into_existing ex [b, a] d).lastUpdated ∧
    List.Perm (merge_into_existing ex [a, b] d).systems
      (merge_into_existing ex [b, a] d).systems := by
  refine ⟨rfl, rfl, ?_⟩
  unfold merge_into_existing mergedSystems
  simp only [List.foldl_cons, List.foldl_nil]
  exact mergeStep_comm h _

theorem claim_C2_amended_witness :
    (merge_into_existing emptyCat [sysA, sysB] "2025-10-12").version =
      (merge_into_existing emptyCat [sysB, sysA] "2025-10-12").version ∧
    (merge_into_existing emptyCat [sysA, sysB] "2025-10-12").lastUpdated =
      (merge_into_existing emptyCat [sysB, sysA] "2025-10-12").lastUpdated ∧
    List.Perm (merge_into_existing emptyCat [sysA, sysB] "2025-10-12").systems
      (merge_into_existing emptyCat [sysB, sysA] "2025-10-12").systems :=
  claim_C2_amended emptyCat sysA sysB "2025-10-12" (by decide)

/-- C3: when the final dotted segment of the version parses as an
integer the merged catalog's version is that segment incremented with
all other segments unchanged; on parse failure the version is left
unchanged; in both cases the rest of the merge proceeds (last-updated
is set to the run date and the systems are merged). -/
theorem claim_C3 (ex : Catalog) (ns : List GradingSystem) (d : String) :
    (∀ n : ℤ, pyParseInt ((splitDot ex.version).getLastD "") = some n →
      (merge_into_existing ex ns d).version =
        String.intercalate "." ((splitDot ex.version).dropLast ++ [toString (n + 1)])) ∧
    (pyParseInt ((splitDot ex.version).getLastD "") = none →
      (merge_into_existing ex ns d).version = ex.version) ∧
    (merge_into_existing ex ns d).lastUpdated = d ∧
    (merge_into_existing ex ns d).systems = mergedSystems ex.systems ns := by
  refine ⟨?_, ?_, rfl, rfl⟩
  · intro n hn
    unfold merge_into_existing bumpVersion
    rw [hn]
  · intro hn
    unfold merge_into_existing bumpVersion
    rw [hn]

theorem claim_C3_witness :
    (merge_into_existing cat103 [annaSystem] "2025-10-12").version =
      String.intercalate "." ((splitDot cat103.version).dropLast ++ [toString ((3 : ℤ) + 1)]) ∧
    (merge_into_existing cat103 [annaSystem] "2025-10-12").version = "1.0.4" ∧
    (merge_into_existing cat103 [annaSystem] "2025-10-12").lastUpdated = "2025-10-12" ∧
    (merge_into_existing cat103 [annaSystem] "2025-10-12").systems = [annaSystem] :=
  ⟨(claim_C3 cat103 [annaSystem] "2025-10-12").1 3 (by decide), by decide, by decide, by decide⟩

/-- C4: merging a validated system and then merging a system with the
same id again leaves exactly one entry with that id in the catalog,
holding the values from the last merge. -/
theorem claim_C4 (cat : Catalog) (s1 s2 : GradingSystem) (d1 d2 : String)
    (hid : s1.id = s2.id) (hne : s2.id ≠ "")
    (hval : s2.country = "India" → is_valid_indian_system s2 = true) :
    (merge_into_existing (merge_into_existing cat [s1] d1) [s2] d2).systems.filter
      (fun t => t.id = s2.id) = [s2] := by
  unfold merge_into_existing mergedSystems
  simp only [List.foldl_cons, List.foldl_nil]
  rw [mergeStep_upsert hne hval]
  exact filter_upsert (idsNodup_buildById _)

theorem claim_C4_witness :
    (merge_into_existing (merge_into_existing emptyCat [annaSystem] "2025-10-11")
        [annaSystem] "2025-10-12").systems.filter
      (fun t => t.id = annaSystem.id) = [annaSystem] :=
  claim_C4 emptyCat annaSystem annaSystem "2025-10-11" "2025-10-12" rfl
    (by decide) (fun _ => by decide)

/-- C5: a system whose scale is not in the admissible set is rejected
by the validator regardless of its grade rows. -/
theorem claim_C5 (s : GradingSystem) (h : s.scale ∉ allowed_scales) :
    is_valid_indian_system s = false :=
  is_valid_scale_notin h

theorem claim_C5_witness :
    scale3System.scale ∉ allowed_scales ∧
    is_valid_indian_system scale3System = false :=
  ⟨by decide, claim_C5 scale3System (by decide)⟩

/-- C6: a system containing two grade rows with the same label is
rejected by the validator. -/
theorem claim_C6 (s : GradingSystem)
    (h : ¬ (s.grades.map (fun g => g.grade)).Nodup) :
    is_valid_indian_system s = false :=
  invalid_of_dup_labels h

theorem claim_C6_witness :
    ¬ ((dupLabelSystem.grades.map (fun g => g.grade)).Nodup) ∧
    is_valid_indian_system dupLabelSystem = false :=
  ⟨by decide, claim_C6 dupLabelSystem (by decide)⟩

/-- C7: for every homepage and every fetch oracle the crawl (a total
function, hence terminating) fetches pairwise distinct URLs, at most
five of them, and returns the Table Interpreter result of the first
fetched page that matches, or none when no fetched page matches. -/
theorem claim_C7 (oracle : String → Option Page) (homepage : String) :
    (find_and_parse_grading oracle homepage).2.Nodup ∧
    (find_and_parse_grading oracle homepage).2.length ≤ 5 ∧
    (find_and_parse_grading oracle homepage).1 =
      (find_and_parse_grading oracle homepage).2.findSome? (fetchParse oracle) :=
  exploreAux_spec oracle (baseUrlOf homepage) [homepage] []
    List.nodup_nil (by simp) (by simp)

set_option maxHeartbeats 4000000 in
/-- C8: the validator gate applies only to India: a non-India system
with a non-empty id is upserted without consulting the validator, and
every baseline system (none of them Indian, several with scale 20) is
merged unchanged into any catalog. -/
theorem claim_C8 :
    (∀ (acc : List GradingSystem) (s : GradingSystem),
        s.country ≠ "India" → s.id ≠ "" → mergeStep acc s = upsertById s acc) ∧
    (∀ (ex : Catalog) (d : String), ∀ b ∈ country_baselines,
        lookupById (merge_into_existing ex country_baselines d).systems b.id = some b) := by
  constructor
  · intro acc s hc hid
    exact mergeStep_upsert hid (fun hIndia => absurd hIndia hc)
  · intro ex d b hb
    have hnodup : (ids country_baselines).Nodup := by decide
    have hpass : ∀ s ∈ country_baselines,
        s.id ≠ "" ∧ (s.country = "India" → is_valid_indian_system s = true) := by
      decide
    exact lookup_merge ex country_baselines d b hb hnodup hpass

set_option maxHeartbeats 4000000 in
theorem claim_C8_witness :
    mergeStep [] portugalSystem = upsertById portugalSystem [] ∧
    lookupById (merge_into_existing emptyCat country_baselines "2025-10-12").systems
      portugalSystem.id = some portugalSystem ∧
    portugalSystem.scale ∉ allowed_scales :=
  ⟨claim_C8.1 [] portugalSystem (by decide) (by decide),
   claim_C8.2 emptyCat "2025-10-12" portugalSystem
     (by set_option maxHeartbeats 4000000 in decide),
   by decide⟩

/-- C9: a new system whose id is empty is skipped silently by the
merge: the result is the same as if it had not been offered at all. -/
theorem claim_C9 (ex : Catalog) (l1 l2 : List GradingSystem) (s : GradingSystem)
    (d : String) (h : s.id = "") :
    merge_into_existing ex (l1 ++ s :: l2) d = merge_into_existing ex (l1 ++ l2) d :=
  merge_skip_middle (Or.inl h)

theorem claim_C9_witness :
    is_valid_indian_system noIdSystem = true ∧
    merge_into_existing emptyCat ([] ++ noIdSystem :: []) "2025-10-12" =
      merge_into_existing emptyCat ([] ++ []) "2025-10-12" :=
  ⟨by decide, claim_C9 emptyCat [] [] noIdSystem "2025-10-12" rfl⟩

/-- C10: the catalog returned by merge always lists systems with
pairwise distinct ids. -/
theorem claim_C10 (ex : Catalog) (ns : List GradingSystem) (d : String) :
    ((merge_into_existing ex ns d).systems.map (fun s => s.id)).Nodup :=
  idsNodup_mergedSystems ex.systems ns

end Crawl
